import Mathlib

set_option maxRecDepth 8000

/-!
Shallow embedding of the Scribd downloader bot (src/experiment.py).

Strings are modelled as Lean `String` / `List Char`; byte payloads as
`List Nat`; the network is an explicit environment value (`Env`) mapping
each request the code can issue to the response the network would give.
Regex character classes (`\d`, `\w`, `\s`) and `re.IGNORECASE` are
modelled over their ASCII meaning, which is the meaning exercised by the
URLs the program handles.
-/

/-! ### URL Classifier: validate_scribd_url and extract_document_id
(experiment.py lines 50-73).  The regexes used there are simple enough to
embed as dedicated scanning functions with Python's leftmost-match,
ordered-alternation, backtracking semantics. -/

/-- Case-insensitive character comparison, modelling `re.IGNORECASE` on
ASCII input (Python additionally case-folds beyond ASCII). -/
def charEqCI (a b : Char) : Bool := a.toLower == b.toLower

/-- Match a literal regex fragment case-insensitively at the start of `s`;
on success return the remaining input after the literal. -/
def matchPrefixCI : List Char → List Char → Option (List Char)
  | [], s => some s
  | _ :: _, [] => none
  | a :: la, b :: lb =>
    match charEqCI a b with
    | true => matchPrefixCI la lb
    | false => none

/-- Maximal run of ASCII digits at the start of the input. -/
def takeDigits : List Char → List Char
  | [] => []
  | c :: t => if c.isDigit then c :: takeDigits t else []

/-- Model of the regex group `(\d+)` at the current position: greedy, at
least one digit; returns the matched digit run (the captured group).  In
every pattern of the source the group is at the end of the pattern, so
the greedy run never has to backtrack. -/
def takeDigits1 : List Char → Option (List Char)
  | [] => none
  | c :: t => if c.isDigit then some (c :: takeDigits t) else none

def litScribd : List Char := "scribd.com/".data
def litDoc : List Char := "doc/".data
def litDocument : List Char := "document/".data
def litPresentation : List Char := "presentation/".data
def litSlashDoc : List Char := "/doc/".data
def litSlashDocument : List Char := "/document/".data
def litSlashPresentation : List Char := "/presentation/".data
def litHttps : List Char := "https://".data
def litHttp : List Char := "http://".data
def litWww : List Char := "www.".data
def litScribdDoc : List Char := "scribd.com/doc/".data
def litScribdDocument : List Char := "scribd.com/document/".data
def litScribdPresentation : List Char := "scribd.com/presentation/".data

/-- Match literal `lit` then a digit group `(\d+)`; return the group. -/
def litDigitsAt (lit : List Char) (s : List Char) : Option (List Char) :=
  match matchPrefixCI lit s with
  | some r => takeDigits1 r
  | none => none

/-- The alternation `(?:doc|document|presentation)/(\d+)` at one
position.  Python tries the alternatives in written order and backtracks:
each alternative is tried together with its full continuation `/(\d+)`,
which is exactly what trying `doc/(\d+)`, `document/(\d+)`,
`presentation/(\d+)` in order computes. -/
def matchSegDigits (r : List Char) : Option (List Char) :=
  match litDigitsAt litDoc r with
  | some d => some d
  | none =>
    match litDigitsAt litDocument r with
    | some d => some d
    | none => litDigitsAt litPresentation r

/-- The regex `scribd\.com/(?:doc|document|presentation)/(\d+)` tried at
a single position (the first pattern of extract_document_id). -/
def matchScribdSegAt (s : List Char) : Option (List Char) :=
  match matchPrefixCI litScribd s with
  | some r => matchSegDigits r
  | none => none

/-- Leftmost-match search (`re.search`): try the position matcher at
every position of the input, leftmost success wins. -/
def searchOpt (f : List Char → Option (List Char)) : List Char → Option (List Char)
  | [] => f []
  | c :: t =>
    match f (c :: t) with
    | some d => some d
    | none => searchOpt f t

/-- The `for pattern in patterns: ... return match.group(1)` loop of
extract_document_id: first pattern that matches anywhere wins. -/
def firstSomeSearch : List (List Char → Option (List Char)) → List Char → Option (List Char)
  | [], _ => none
  | f :: fs, l =>
    match searchOpt f l with
    | some d => some d
    | none => firstSomeSearch fs l

/-- Core of extract_document_id on character lists; the pattern list is
the source's, in source order. -/
def extractDocIdL (l : List Char) : Option (List Char) :=
  firstSomeSearch
    [matchScribdSegAt, litDigitsAt litSlashDoc, litDigitsAt litSlashDocument,
      litDigitsAt litSlashPresentation] l

/-- experiment.py lines 60-73: extract the numeric document id from a
Scribd URL, or None when no pattern matches. -/
def extract_document_id (url : String) : Option String :=
  match extractDocIdL url.data with
  | some d => some (String.mk d)
  | none => none

/-- The fragment `https?://`.  The two expansions are mutually exclusive
at any one position (5th character `s` vs `:`), so no backtracking
between them can be observed. -/
def matchScheme (s : List Char) : Option (List Char) :=
  match matchPrefixCI litHttps s with
  | some r => some r
  | none => matchPrefixCI litHttp s

/-- Scheme plus optional `www.` followed by a core pattern, with regex
backtracking over the optional `www.` (try with it, then without). -/
def matchSchemeThen (core : List Char → Option (List Char)) (s : List Char) :
    Option (List Char) :=
  match matchScheme s with
  | none => none
  | some r =>
    match matchPrefixCI litWww r with
    | some r2 =>
      match core r2 with
      | some d => some d
      | none => core r
    | none => core r

/-- Pattern 1 of validate_scribd_url at one position. -/
def matchV1At : List Char → Option (List Char) := matchSchemeThen matchScribdSegAt

/-- Pattern 2 of validate_scribd_url at one position. -/
def matchV2At : List Char → Option (List Char) := matchSchemeThen (litDigitsAt litScribdDoc)

/-- Pattern 3 of validate_scribd_url at one position.  The source
pattern ends with the optional group `(?:/[^/?]+)?`; the pattern ends
right after it, so the optional slug can never affect whether a match
exists and is dropped from the embedding. -/
def matchV3At : List Char → Option (List Char) := matchSchemeThen (litDigitsAt litScribdDocument)

/-- Pattern 4 of validate_scribd_url at one position. -/
def matchV4At : List Char → Option (List Char) := matchSchemeThen (litDigitsAt litScribdPresentation)

/-- experiment.py lines 50-58: `any(re.search(p, url, re.IGNORECASE) for
p in patterns)` over the four accepted URL patterns. -/
def validate_scribd_url (url : String) : Bool :=
  (searchOpt matchV1At url.data).isSome || (searchOpt matchV2At url.data).isSome ||
    (searchOpt matchV3At url.data).isSome || (searchOpt matchV4At url.data).isSome

/-- The classification phase of download_document (experiment.py lines
180-195): a URL yields a document reference only when
validate_scribd_url accepts it and extract_document_id then extracts an
id; otherwise no reference is produced.  This is the code realisation of
the spec's `classify(rawText) -> DocumentReference | None`. -/
def classify (url : String) : Option String :=
  if validate_scribd_url url then extract_document_id url else none

/-! ### sanitize_filename (experiment.py lines 75-82) -/

/-- ASCII meaning of the regex class `\w`. -/
def pyWordChar (c : Char) : Bool := c.isAlphanum || c == '_'

/-- ASCII meaning of the regex class `\s`. -/
def pySpaceChar (c : Char) : Bool :=
  c == ' ' || c == '\t' || c == '\n' || c == '\r' || c == '\x0b' || c == '\x0c'

def dashOrSpace (c : Char) : Bool := c == '-' || pySpaceChar c

/-- Model of `re.sub(r'[-\s]+', '_', name)`: replace each maximal run of
dashes/whitespace by a single underscore. -/
def collapseRuns : List Char → List Char
  | [] => []
  | [c] => if dashOrSpace c then ['_'] else [c]
  | c :: d :: t =>
    if dashOrSpace c then
      if dashOrSpace d then collapseRuns (d :: t)
      else '_' :: collapseRuns (d :: t)
    else c :: collapseRuns (d :: t)

/-- Model of `name.strip('_')`. -/
def stripUnderscores (l : List Char) : List Char :=
  ((l.dropWhile (· == '_')).reverse.dropWhile (· == '_')).reverse

def litPdfExt : List Char := ".pdf".data

/-- Model of `name.lower().endswith('.pdf')` (ASCII lower). -/
def endsWithPdfCI (l : List Char) : Bool := litPdfExt.isSuffixOf (l.map Char.toLower)

/-- The character-list body of sanitize_filename before the final
truncation: strip non-word characters, collapse dash/space runs to
underscores, strip underscores, append `.pdf` when the name does not
already end with it. -/
def sanitizeCore (l : List Char) : List Char :=
  let l1 := l.filter (fun c => pyWordChar c || pySpaceChar c || c == '-')
  let l2 := collapseRuns l1
  let l3 := stripUnderscores l2
  if endsWithPdfCI l3 then l3 else l3 ++ litPdfExt

/-- experiment.py lines 75-82: clean the name and truncate the result to
60 characters (`return name[:60]`). -/
def sanitize_filename (name : String) : String :=
  String.mk ((sanitizeCore name.data).take 60)

/-! ### The downloader (experiment.py lines 121-249)

The network is modelled by `Env`.  A service query (POST of the document
URL, then on a JSON success reply a GET of the returned pdf url) is
described by `SvcEnv`; the alternative direct GET by an `HttpResult`.  A
network call either raises (`exn`, with a flag recording whether the
exception is a timeout — both are caught alike by the code) or returns a
status and a value. -/

inductive HttpResult (α : Type) where
  | exn (timeout : Bool)
  | ok (status : Nat) (value : α)
deriving DecidableEq

/-- Shape of the JSON body a download service answers with:
`data.get('success')` and `data.get('pdf_url')`. -/
structure JsonReply where
  success : Bool
  pdf_url : Option String
deriving DecidableEq

/-- Network behaviour of one service for one document: the POST reply
and, if a pdf url is followed, the GET reply. -/
structure SvcEnv where
  post : HttpResult JsonReply
  getPdf : HttpResult (List Nat)
deriving DecidableEq

/-- The whole network: behaviour of each download service (keyed by
document id and service URL) and of the alternative direct-download
endpoint (keyed by its URL). -/
structure Env where
  svc : String → String → SvcEnv
  alt : String → HttpResult (List Nat)

/-- The four bytes of `b'%PDF'`. -/
def pdfSignature : List Nat := [37, 80, 68, 70]

/-- Python truthiness of an `Optional[str]`: false for None and for the
empty string. -/
def truthyStr : Option String → Bool
  | some s => !s.isEmpty
  | none => false

/-- experiment.py lines 121-139 (download_from_service): POST to the
service; on HTTP 200 with a truthy `success` and `pdf_url` in the JSON
reply, GET the pdf url and return its body on HTTP 200.  Any raised
exception (including a timeout) is caught and becomes None; every other
path also returns None. -/
def download_from_service (env : Env) (doc_id : String) (service_url : String) :
    Option (List Nat) :=
  match (env.svc doc_id service_url).post with
  | .exn _ => none
  | .ok status reply =>
    if status == 200 then
      if reply.success && truthyStr reply.pdf_url then
        match (env.svc doc_id service_url).getPdf with
        | .exn _ => none
        | .ok st2 b => if st2 == 200 then some b else none
      else none
    else none

/-- The acceptance test of the service loop (experiment.py line 153):
`pdf_data and pdf_data[:4] == b'%PDF'` (empty bytes are falsy). -/
def pdfCheck : Option (List Nat) → Bool
  | none => false
  | some b => !b.isEmpty && (b.take 4 == pdfSignature)

def service1 : String := "https://api.scribd-downloader.co/v1/download"
def service2 : String := "https://scribd-downloader-api.herokuapp.com/download"
def service3 : String := "https://scribd-dl.onrender.com/api/download"

/-- experiment.py lines 32-36: the configured service endpoints. -/
def DOWNLOAD_SERVICES : List String := [service1, service2, service3]

/-- The `for service_url in DOWNLOAD_SERVICES` loop of direct_download
(lines 149-155), instrumented with the list of service URLs actually
queried, in order.  Stops at the first payload passing `pdfCheck`. -/
def tryServices (env : Env) (doc_id : String) : List String → Option (List Nat) × List String
  | [] => (none, [])
  | u :: rest =>
    let pdf_data := download_from_service env doc_id u
    if pdfCheck pdf_data then (pdf_data, [u])
    else
      let r := tryServices env doc_id rest
      (r.1, u :: r.2)

def altUrlBase : String := "https://scribd-downloader.co/download/"

/-- The alternative GET of direct_download (lines 157-163): on HTTP 200
return the body if it starts with the signature; otherwise, and on any
exception, None. -/
def altFetch : HttpResult (List Nat) → Option (List Nat)
  | .exn _ => none
  | .ok status content =>
    if status == 200 then
      if content.take 4 == pdfSignature then some content else none
    else none

/-- experiment.py lines 141-169 (direct_download), instrumented with the
ordered list of URLs requested.  Extracts the document id (returning
None on a falsy id, with no network call), walks the service list, and
when every service fails issues one more GET to the alternative
endpoint.  The surrounding `except Exception` catches everything the
body can raise — including the timeouts of the alternative GET — so the
function cannot propagate an exception and is embedded as total. -/
def direct_download (env : Env) (scribd_url : String) : Option (List Nat) × List String :=
  match extract_document_id scribd_url with
  | none => (none, [])
  | some docId =>
    if docId.isEmpty then (none, [])
    else
      let r := tryServices env docId DOWNLOAD_SERVICES
      match r.1 with
      | some b => (some b, r.2)
      | none =>
        let alt_url := altUrlBase ++ docId
        (altFetch (env.alt alt_url), r.2 ++ [alt_url])

/-- The result dictionary of download_document.  `size` is None for the
failure dictionaries, which carry no 'size' key. -/
structure DocResult where
  success : Bool
  data : Option (List Nat)
  filename : String
  error : Option String
  size : Option Nat
deriving DecidableEq

def msgInvalidUrl : String := "Invalid Scribd URL format"
def msgNoId : String := "Could not extract document ID"
def msgNotRetrievable : String :=
  "Document could not be downloaded. It might require subscription or be private."
def msgTimeout : String := "Download timed out (30s). Try again later."
def msgTooLargeA : String := "File too large ("
def msgTooLargeB : String := "MB). Max 50MB."
def fileNameSuccessBase : String := "scribd_document_"
def fileNameTooLargeBase : String := "document_"
def dotPdf : String := ".pdf"
def emptyName : String := ""
def dotSep : String := "."

/-- The f-string `File too large ({mb:.1f}MB). Max 50MB.`; the one
decimal of the megabyte count is rendered over Nat (truncation) as an
approximation of Python float formatting — no claim depends on the
digits of this message. -/
def tooLargeMsg (n : Nat) : String :=
  msgTooLargeA ++ toString (n / 1048576) ++ dotSep ++ toString (n * 10 / 1048576 % 10) ++
    msgTooLargeB

def invalidUrlResult : DocResult := ⟨false, none, emptyName, some msgInvalidUrl, none⟩
def noIdResult : DocResult := ⟨false, none, emptyName, some msgNoId, none⟩
def notRetrievableResult : DocResult := ⟨false, none, emptyName, some msgNotRetrievable, none⟩
def tooLargeResult (id : String) (n : Nat) : DocResult :=
  ⟨false, none, fileNameTooLargeBase ++ id ++ dotPdf, some (tooLargeMsg n), none⟩

/-- experiment.py lines 171-249 (download_document).  The two `except`
handlers at lines 235-249 are not reachable from the embedded body: the
code inside the `try` either is pure (validate/extract) or is
direct_download, which catches every exception itself; accordingly they
have no counterpart in the embedding. -/
def download_document (env : Env) (scribd_url : String) : DocResult :=
  if validate_scribd_url scribd_url then
    match extract_document_id scribd_url with
    | none => noIdResult
    | some id =>
      if id.isEmpty then noIdResult
      else
        match (direct_download env scribd_url).1 with
        | some d =>
          if d.isEmpty then notRetrievableResult
          else if d.length > 50 * 1024 * 1024 then tooLargeResult id d.length
          else ⟨true, some d, fileNameSuccessBase ++ id ++ dotPdf, none, some d.length⟩
        | none => notRetrievableResult
  else invalidUrlResult

/-! ### Helper lemmas about the pattern matchers -/

lemma searchOpt_cons_of_none {f : List Char → Option (List Char)} {c : Char} {t : List Char}
    (h : f (c :: t) = none) : searchOpt f (c :: t) = searchOpt f t := by
  simp [searchOpt, h]

lemma searchOpt_cons_of_some {f : List Char → Option (List Char)} {c : Char} {t : List Char}
    {x : List Char} (h : f (c :: t) = some x) : searchOpt f (c :: t) = some x := by
  simp [searchOpt, h]

/-- A leftmost search skips a region where the matcher fails at every
position. -/
lemma searchOpt_append_none {f : List Char → Option (List Char)} :
    ∀ (pre tail : List Char), (∀ n, n < pre.length → f (pre.drop n ++ tail) = none) →
      searchOpt f (pre ++ tail) = searchOpt f tail
  | [], _, _ => rfl
  | c :: p, tail, h => by
    have h0 : f (c :: (p ++ tail)) = none := by
      have := h 0 (by simp)
      simpa using this
    rw [List.cons_append, searchOpt_cons_of_none h0]
    exact searchOpt_append_none p tail fun n hn => by
      have := h (n + 1) (by simpa using hn)
      simpa using this

/-- A successful leftmost search means the matcher succeeds at some
position. -/
lemma searchOpt_some_drop {f : List Char → Option (List Char)} :
    ∀ (l x : List Char), searchOpt f l = some x → ∃ n, f (l.drop n) = some x
  | [], x, h => ⟨0, h⟩
  | c :: t, x, h => by
    cases hf : f (c :: t) with
    | some d =>
      refine ⟨0, ?_⟩
      simp only [searchOpt, hf] at h
      simpa [hf] using h
    | none =>
      simp only [searchOpt, hf] at h
      obtain ⟨n, hn⟩ := searchOpt_some_drop t x h
      exact ⟨n + 1, by simpa using hn⟩

/-- A matcher success at any position makes the leftmost search succeed. -/
lemma searchOpt_isSome_drop {f : List Char → Option (List Char)} :
    ∀ (l : List Char) (n : Nat) (x : List Char), f (l.drop n) = some x →
      ∃ y, searchOpt f l = some y
  | [], n, x, h => ⟨x, by simpa [searchOpt, List.drop_nil] using h⟩
  | c :: t, 0, x, h => ⟨x, searchOpt_cons_of_some (by simpa using h)⟩
  | c :: t, n + 1, x, h => by
    have h' : f (t.drop n) = some x := by simpa using h
    obtain ⟨y, hy⟩ := searchOpt_isSome_drop t n x h'
    cases hf : f (c :: t) with
    | some d => exact ⟨d, searchOpt_cons_of_some hf⟩
    | none => exact ⟨y, by rw [searchOpt_cons_of_none hf]; exact hy⟩

/-- A literal match consumes exactly the literal's length. -/
lemma matchPrefixCI_drop : ∀ (lit s r : List Char), matchPrefixCI lit s = some r →
    r = s.drop lit.length
  | [], s, r, h => by
    simp only [matchPrefixCI] at h
    simpa using h.symm
  | _ :: _, [], r, h => by simp [matchPrefixCI] at h
  | a :: la, b :: lb, r, h => by
    simp only [matchPrefixCI] at h
    cases hc : charEqCI a b with
    | true =>
      rw [hc] at h
      simpa using matchPrefixCI_drop la lb r h
    | false => rw [hc] at h; exact absurd h (by simp)

/-- Matching a concatenated literal decomposes into matching the pieces. -/
lemma matchPrefixCI_append_some : ∀ (l1 l2 s r : List Char),
    matchPrefixCI (l1 ++ l2) s = some r →
    ∃ m, matchPrefixCI l1 s = some m ∧ matchPrefixCI l2 m = some r
  | [], l2, s, r, h => ⟨s, rfl, h⟩
  | _ :: _, _, [], r, h => by simp [matchPrefixCI] at h
  | a :: la, l2, b :: lb, r, h => by
    simp only [List.cons_append, matchPrefixCI] at h ⊢
    cases hc : charEqCI a b with
    | true =>
      rw [hc] at h
      exact matchPrefixCI_append_some la l2 lb r h
    | false => rw [hc] at h; exact absurd h (by simp)

/-- Head test used to delimit the greedy digit group. -/
def headNotDigit : List Char → Bool
  | [] => true
  | c :: _ => !c.isDigit

lemma takeDigits_append : ∀ {d rest : List Char}, (∀ c ∈ d, c.isDigit = true) →
    headNotDigit rest = true → takeDigits (d ++ rest) = d
  | [], rest, _, hrest => by
    cases rest with
    | nil => rfl
    | cons c t =>
      have : c.isDigit = false := by simpa [headNotDigit] using hrest
      simp [takeDigits, this]
  | c :: d', rest, hd, hrest => by
    have hc : c.isDigit = true := hd c (by simp)
    simp only [List.cons_append, takeDigits, hc, if_true]
    exact congrArg (List.cons c) (takeDigits_append (fun x hx => hd x (by simp [hx])) hrest)

lemma takeDigits1_append {d rest : List Char} (hne : d ≠ [])
    (hd : ∀ c ∈ d, c.isDigit = true) (hrest : headNotDigit rest = true) :
    takeDigits1 (d ++ rest) = some d := by
  cases d with
  | nil => exact absurd rfl hne
  | cons c d' =>
    have hc : c.isDigit = true := hd c (by simp)
    simp only [List.cons_append, takeDigits1, hc, if_true]
    exact congrArg (fun l => some (List.cons c l))
      (takeDigits_append (fun x hx => hd x (by simp [hx])) hrest)

lemma takeDigits_digits : ∀ (s : List Char), ∀ c ∈ takeDigits s, c.isDigit = true
  | [], c, hc => by simp [takeDigits] at hc
  | b :: t, c, hc => by
    by_cases hb : b.isDigit
    · simp only [takeDigits, hb, if_true, List.mem_cons] at hc
      rcases hc with rfl | hc
      · exact hb
      · exact takeDigits_digits t c hc
    · simp [takeDigits, hb] at hc

lemma takeDigits1_some {s d : List Char} (h : takeDigits1 s = some d) :
    d ≠ [] ∧ ∀ c ∈ d, c.isDigit = true := by
  cases s with
  | nil => simp [takeDigits1] at h
  | cons c t =>
    by_cases hc : c.isDigit
    · simp only [takeDigits1, hc, if_true, Option.some.injEq] at h
      subst h
      refine ⟨by simp, ?_⟩
      intro x hx
      rcases List.mem_cons.mp hx with rfl | hx
      · exact hc
      · exact takeDigits_digits t x hx
    · simp [takeDigits1, hc] at h

lemma litDigitsAt_some {lit s d : List Char} (h : litDigitsAt lit s = some d) :
    d ≠ [] ∧ ∀ c ∈ d, c.isDigit = true := by
  unfold litDigitsAt at h
  cases hm : matchPrefixCI lit s with
  | none => rw [hm] at h; exact absurd h (by simp)
  | some r => rw [hm] at h; exact takeDigits1_some h

lemma matchSegDigits_some {r d : List Char} (h : matchSegDigits r = some d) :
    d ≠ [] ∧ ∀ c ∈ d, c.isDigit = true := by
  unfold matchSegDigits at h
  cases h1 : litDigitsAt litDoc r with
  | some x => rw [h1] at h; exact litDigitsAt_some (h1.trans (by simpa using h))
  | none =>
    rw [h1] at h
    cases h2 : litDigitsAt litDocument r with
    | some x => rw [h2] at h; exact litDigitsAt_some (h2.trans (by simpa using h))
    | none => rw [h2] at h; exact litDigitsAt_some h

lemma matchScribdSegAt_some {s d : List Char} (h : matchScribdSegAt s = some d) :
    d ≠ [] ∧ ∀ c ∈ d, c.isDigit = true := by
  unfold matchScribdSegAt at h
  cases hm : matchPrefixCI litScribd s with
  | none => rw [hm] at h; exact absurd h (by simp)
  | some r => rw [hm] at h; exact matchSegDigits_some h

/-! ### Helper lemmas about the downloader -/

lemma pdfCheck_some_true {b : List Nat} (h : pdfCheck (some b) = true) :
    b ≠ [] ∧ b.take 4 = pdfSignature := by
  simp only [pdfCheck, Bool.and_eq_true, Bool.not_eq_true', beq_iff_eq] at h
  exact ⟨by simpa [List.isEmpty_iff] using h.1, h.2⟩

lemma pdfCheck_of_sig {b : List Nat} (hsig : b.take 4 = pdfSignature) :
    pdfCheck (some b) = true := by
  have hne : b ≠ [] := by
    intro he
    rw [he] at hsig
    simp [pdfSignature] at hsig
  simp [pdfCheck, hsig, List.isEmpty_iff, hne]

lemma tryServices_some_sig {env : Env} {docId : String} :
    ∀ (urls : List String) (b : List Nat) (tr : List String),
      tryServices env docId urls = (some b, tr) → b.take 4 = pdfSignature
  | [], b, tr, h => by simp [tryServices] at h
  | u :: rest, b, tr, h => by
    by_cases hc : pdfCheck (download_from_service env docId u) = true
    · simp only [tryServices, hc, if_true] at h
      have hd : download_from_service env docId u = some b := by
        simpa using congrArg Prod.fst h
      rw [hd] at hc
      exact (pdfCheck_some_true hc).2
    · rcases hrec : tryServices env docId rest with ⟨r1, r2⟩
      simp only [tryServices, hc, if_false, hrec] at h
      have h1 : r1 = some b := by simpa using congrArg Prod.fst h
      exact tryServices_some_sig rest b r2 (by rw [hrec, h1])

lemma altFetch_some_sig {hr : HttpResult (List Nat)} {b : List Nat}
    (he : altFetch hr = some b) : b.take 4 = pdfSignature := by
  cases hr with
  | exn t => simp [altFetch] at he
  | ok st content =>
    simp only [altFetch] at he
    split_ifs at he with h1 h2
    cases he
    exact eq_of_beq h2

lemma direct_download_some_sig {env : Env} {url : String} {b : List Nat}
    (h : (direct_download env url).1 = some b) : b.take 4 = pdfSignature := by
  rcases hx : extract_document_id url with _ | docId
  · simp only [direct_download, hx] at h
    exact absurd h (by simp)
  · by_cases hid : docId.isEmpty = true
    · simp only [direct_download, hx, hid, if_true] at h
      exact absurd h (by simp)
    · rcases htr : tryServices env docId DOWNLOAD_SERVICES with ⟨r1, r2⟩
      simp only [direct_download, hx, hid, if_false, Bool.false_eq_true, htr] at h
      cases r1 with
      | some b' =>
        have hb : b' = b := by simpa using h
        exact tryServices_some_sig DOWNLOAD_SERVICES b r2 (by rw [htr, hb])
      | none =>
        exact altFetch_some_sig (by simpa using h)

lemma msgTooLarge_ne_empty (n : Nat) : tooLargeMsg n ≠ emptyName := by
  intro h
  have hd := congrArg String.data h
  have hA : msgTooLargeA.data ≠ [] := by decide
  have hE : emptyName.data = [] := by decide
  rw [hE] at hd
  simp only [tooLargeMsg, String.data_append, List.append_assoc, List.append_eq_nil] at hd
  exact hA hd.1

/-- Exhaustive description of the return branches of download_document. -/
lemma download_document_shape (env : Env) (url : String) :
    download_document env url = invalidUrlResult ∨
    download_document env url = noIdResult ∨
    download_document env url = notRetrievableResult ∨
    (∃ id d, extract_document_id url = some id ∧ (direct_download env url).1 = some d ∧
      d.length > 50 * 1024 * 1024 ∧
      download_document env url = tooLargeResult id d.length) ∨
    (∃ id d, extract_document_id url = some id ∧ (direct_download env url).1 = some d ∧
      d ≠ [] ∧ d.length ≤ 50 * 1024 * 1024 ∧
      download_document env url =
        ⟨true, some d, fileNameSuccessBase ++ id ++ dotPdf, none, some d.length⟩) := by
  by_cases hv : validate_scribd_url url = true
  · cases hx : extract_document_id url with
    | none =>
      right; left
      simp [download_document, hv, hx]
    | some id =>
      by_cases hid : id.isEmpty = true
      · right; left
        simp [download_document, hv, hx, hid]
      · rcases hdl : (direct_download env url).1 with _ | d
        · right; right; left
          simp [download_document, hv, hx, hid, hdl]
        · by_cases hde : d.isEmpty = true
          · right; right; left
            simp [download_document, hv, hx, hid, hdl, hde]
          · by_cases hlen : d.length > 50 * 1024 * 1024
            · right; right; right; left
              refine ⟨id, d, rfl, rfl, hlen, ?_⟩
              simp [download_document, hv, hx, hid, hdl, hde, hlen]
            · right; right; right; right
              refine ⟨id, d, rfl, rfl, ?_, Nat.not_lt.mp hlen, ?_⟩
              · simpa [List.isEmpty_iff] using hde
              · simp [download_document, hv, hx, hid, hdl, hde, hlen]
  · left
    simp [download_document, hv]

/-! ### Concrete environments used by witnesses -/

def pdfUrlStub : String := "https://cdn.example.org/file.pdf"

/-- A service whose POST raises (e.g. times out). -/
def svcFailPost : SvcEnv := ⟨.exn true, .exn true⟩

/-- A service that replies with a pdf url and serves a signed payload. -/
def svcGood : SvcEnv := ⟨.ok 200 ⟨true, some pdfUrlStub⟩, .ok 200 [37, 80, 68, 70, 9]⟩

/-- A network on which every service works. -/
def envOk : Env := ⟨fun _ _ => svcGood, fun _ => .exn true⟩

def urlOk : String := "https://www.scribd.com/document/123456789/My-Title"

/-! ### Claim C1 -/

/-- C1: for every resolution, a payload whose first four bytes are not
`%PDF` is never returned as a success — every success result of
download_document carries a payload whose first four bytes are the
signature (both the service loop and the alternative GET of
direct_download discard any body failing the four-byte check, whatever
the HTTP status was). -/
theorem C1_success_payload_starts_with_pdf (env : Env) (url : String)
    (h : (download_document env url).success = true) :
    ∃ d, (download_document env url).data = some d ∧ d.take 4 = pdfSignature := by
  rcases download_document_shape env url with hs | hs | hs | ⟨id, d, _, _, _, hs⟩ |
      ⟨id, d, _, hdl, _, _, hs⟩
  · rw [hs] at h; exact absurd h (by decide)
  · rw [hs] at h; exact absurd h (by decide)
  · rw [hs] at h; exact absurd h (by decide)
  · rw [hs] at h; exact absurd h (by simp [tooLargeResult])
  · exact ⟨d, by rw [hs], direct_download_some_sig hdl⟩

theorem C1_success_payload_starts_with_pdf_witness :
    (download_document envOk urlOk).success = true ∧
      ∃ d, (download_document envOk urlOk).data = some d ∧ d.take 4 = pdfSignature :=
  ⟨by decide, C1_success_payload_starts_with_pdf envOk urlOk (by decide)⟩

/-! ### Claim C9 -/

/-- C9: every result dictionary of download_document is internally
consistent: when success is False, data is None and error is a non-empty
string; when success is True, data is a payload starting with `%PDF` of
length at most 50 MiB, error is None, and size equals the payload
length. -/
theorem C9_result_dictionary_consistent (env : Env) (url : String) :
    ((download_document env url).success = false →
      (download_document env url).data = none ∧
      ∃ e, (download_document env url).error = some e ∧ e ≠ emptyName) ∧
    ((download_document env url).success = true →
      ∃ d, (download_document env url).data = some d ∧ d.take 4 = pdfSignature ∧
        d.length ≤ 50 * 1024 * 1024 ∧ (download_document env url).error = none ∧
        (download_document env url).size = some d.length) := by
  rcases download_document_shape env url with hs | hs | hs | ⟨id, d, _, hdl, hlen, hs⟩ |
      ⟨id, d, _, hdl, hne, hlen, hs⟩ <;> rw [hs]
  · exact ⟨fun _ => ⟨rfl, msgInvalidUrl, rfl, by decide⟩, fun h => absurd h (by decide)⟩
  · exact ⟨fun _ => ⟨rfl, msgNoId, rfl, by decide⟩, fun h => absurd h (by decide)⟩
  · exact ⟨fun _ => ⟨rfl, msgNotRetrievable, rfl, by decide⟩, fun h => absurd h (by decide)⟩
  · exact ⟨fun _ => ⟨rfl, tooLargeMsg d.length, rfl, msgTooLarge_ne_empty d.length⟩,
      fun h => absurd h (by simp [tooLargeResult])⟩
  · exact ⟨fun h => absurd h (by simp),
      fun _ => ⟨d, rfl, direct_download_some_sig hdl, hlen, rfl, rfl⟩⟩

theorem C9_result_dictionary_consistent_witness :
    ∃ d, (download_document envOk urlOk).data = some d ∧ d.take 4 = pdfSignature ∧
      d.length ≤ 50 * 1024 * 1024 ∧ (download_document envOk urlOk).error = none ∧
      (download_document envOk urlOk).size = some d.length :=
  (C9_result_dictionary_consistent envOk urlOk).2 (by decide)

/-! ### Claim C2 -/

/-- The service loop stops at the first endpoint whose reply passes the
signature check, returning its payload, when all earlier endpoints
produced nothing. -/
lemma tryServices_first_success {env : Env} {docId : String} :
    ∀ (urls : List String) (k : Nat) (hk : k < urls.length) (b : List Nat),
      download_from_service env docId (urls.get ⟨k, hk⟩) = some b →
      b.take 4 = pdfSignature →
      (∀ j (hj : j < k),
        download_from_service env docId (urls.get ⟨j, Nat.lt_trans hj hk⟩) = none) →
      tryServices env docId urls = (some b, urls.take (k + 1))
  | [], k, hk, b, _, _, _ => absurd hk (by simp)
  | u :: rest, 0, hk, b, hb, hsig, _ => by
    have hu : download_from_service env docId u = some b := hb
    have hc : pdfCheck (some b) = true := pdfCheck_of_sig hsig
    simp [tryServices, hu, hc]
  | u :: rest, k + 1, hk, b, hb, hsig, hprev => by
    have hu0 : download_from_service env docId u = none := hprev 0 (Nat.succ_pos k)
    have hrec := tryServices_first_success rest k (Nat.lt_of_succ_lt_succ hk) b hb hsig
      (fun j hj => hprev (j + 1) (Nat.succ_lt_succ hj))
    simp [tryServices, hu0, pdfCheck, hrec]

/-- C2: for every endpoint list and every index k whose endpoint yields a
payload passing the `%PDF` check while every endpoint before k fails
(error, non-success status or timeout — all of which make
download_from_service yield None), the resolution loop returns success
with exactly endpoint k's payload and the requests issued are exactly the
first k+1 endpoints, in order, so no endpoint after k is ever queried;
when the list is the configured DOWNLOAD_SERVICES, direct_download
returns the same payload and the same request trace (in particular the
alternative endpoint is not queried either). -/
theorem C2_first_success_short_circuits (env : Env) (docId : String)
    (urls : List String) (k : Nat) (hk : k < urls.length) (b : List Nat)
    (hb : download_from_service env docId (urls.get ⟨k, hk⟩) = some b)
    (hsig : b.take 4 = pdfSignature)
    (hprev : ∀ j (hj : j < k),
      download_from_service env docId (urls.get ⟨j, Nat.lt_trans hj hk⟩) = none) :
    tryServices env docId urls = (some b, urls.take (k + 1)) ∧
    (∀ url, extract_document_id url = some docId → docId.isEmpty = false →
      urls = DOWNLOAD_SERVICES →
      direct_download env url = (some b, urls.take (k + 1))) := by
  have h1 := tryServices_first_success urls k hk b hb hsig hprev
  refine ⟨h1, fun url hurl hid hlist => ?_⟩
  subst hlist
  simp [direct_download, hurl, hid, h1]

def nameA : String := "a"
def nameB : String := "b"
def twoUrls : List String := [nameA, nameB]
def idW : String := "123456789"

/-- Network where only the second endpoint works. -/
def envC2 : Env := ⟨fun _ u => if u == nameB then svcGood else svcFailPost, fun _ => .exn true⟩

theorem C2_first_success_short_circuits_witness :
    tryServices envC2 idW twoUrls = (some [37, 80, 68, 70, 9], [nameA, nameB]) :=
  (C2_first_success_short_circuits envC2 idW twoUrls 1 (by decide) [37, 80, 68, 70, 9]
    (by decide) (by decide)
    (fun j hj => by
      have hj0 : j = 0 := Nat.lt_one_iff.mp hj
      subst hj0
      show download_from_service envC2 idW nameA = none
      decide)).1

/-! ### Claim C3 -/

/-- When the check fails for every listed service, the loop walks the
whole list and reports no payload. -/
lemma tryServices_all_fail {env : Env} {docId : String} :
    ∀ (urls : List String),
      (∀ u ∈ urls, pdfCheck (download_from_service env docId u) = false) →
      tryServices env docId urls = (none, urls)
  | [], _ => rfl
  | u :: rest, h => by
    have hu := h u (by simp)
    have hrec := tryServices_all_fail rest (fun v hv => h v (by simp [hv]))
    simp [tryServices, hu, hrec]

/-- A service that answers HTTP 200 with a body not starting with the
signature. -/
def svcNonPdf : SvcEnv := ⟨.ok 200 ⟨true, some pdfUrlStub⟩, .ok 200 [1, 2, 3]⟩

/-- Network where each of the three services serves a non-PDF 200 body,
and so does the alternative endpoint. -/
def envC3 : Env := ⟨fun _ _ => svcNonPdf, fun _ => .ok 200 [7, 7]⟩

def altUrlW : String := "https://scribd-downloader.co/download/123456789"

/-- C3 counterexample: with all three configured endpoints returning
non-PDF bodies, the resolution does return no payload, but it issues a
fourth network request — a GET of the alternative direct-download
endpoint — after the third endpoint fails, contradicting the claim that
exactly three attempts are made and no further request follows. -/
theorem C3_counterexample :
    direct_download envC3 urlOk = (none, DOWNLOAD_SERVICES ++ [altUrlW]) ∧
    (direct_download envC3 urlOk).2.length = 4 := by decide

/-- C3 amended: when all three configured endpoints return non-PDF
bodies, the loop walks them in configured order and then issues exactly
one more request, to the alternative direct-download endpoint; when that
request also yields no signed payload, resolution ends with no payload
(four requests in total) and download_document reports the
not-retrievable failure. -/
theorem C3_all_non_pdf_four_requests (env : Env) (url id : String)
    (hv : validate_scribd_url url = true)
    (hx : extract_document_id url = some id) (hid : id.isEmpty = false)
    (hfail : ∀ u ∈ DOWNLOAD_SERVICES, ∃ b, download_from_service env id u = some b ∧
      b.take 4 ≠ pdfSignature)
    (halt : altFetch (env.alt (altUrlBase ++ id)) = none) :
    direct_download env url = (none, DOWNLOAD_SERVICES ++ [altUrlBase ++ id]) ∧
    download_document env url = notRetrievableResult := by
  have hfail' : ∀ u ∈ DOWNLOAD_SERVICES, pdfCheck (download_from_service env id u) = false := by
    intro u hu
    obtain ⟨b, hb, hs⟩ := hfail u hu
    have hsb : (b.take 4 == pdfSignature) = false := beq_eq_false_iff_ne.mpr hs
    rw [hb]
    simp [pdfCheck, hsb]
  have htr := tryServices_all_fail DOWNLOAD_SERVICES hfail'
  have h1 : direct_download env url = (none, DOWNLOAD_SERVICES ++ [altUrlBase ++ id]) := by
    simp [direct_download, hx, hid, htr, halt]
  have hdd1 : (direct_download env url).1 = none := by rw [h1]
  exact ⟨h1, by simp [download_document, hv, hx, hid, hdd1]⟩

theorem C3_all_non_pdf_four_requests_witness :
    direct_download envC3 urlOk = (none, DOWNLOAD_SERVICES ++ [altUrlBase ++ idW]) ∧
    download_document envC3 urlOk = notRetrievableResult :=
  C3_all_non_pdf_four_requests envC3 urlOk idW (by decide) (by decide) (by decide)
    (fun u _ => ⟨[1, 2, 3], rfl, by decide⟩) (by decide)

/-! ### Claim C5 -/

/-- Network on which every network call raises a timeout. -/
def envTimeoutAll : Env := ⟨fun _ _ => svcFailPost, fun _ => .exn true⟩

/-- C5 counterexample: on a run where every endpoint attempt times out,
download_document returns the generic not-retrievable failure, not the
timeout failure: every timeout is caught inside
download_from_service / direct_download (the code's `except Exception`
handlers), so the `asyncio.TimeoutError` branch of download_document
(the message `Download timed out (30s). Try again later.`) is not
reached. -/
theorem C5_counterexample :
    download_document envTimeoutAll urlOk = notRetrievableResult ∧
    notRetrievableResult.error = some msgNotRetrievable ∧
    msgNotRetrievable ≠ msgTimeout := by decide

/-- C5 amended: the result distinguishes only these cases: when the
classifier rejects the URL the invalid-reference failure is returned;
and all endpoint-level failures — timeout, transport error, bad status
or invalid payload — collapse into the single not-retrievable failure;
in particular when every attempted endpoint times out the
not-retrievable failure is returned rather than a timeout-specific
one. -/
theorem C5_failure_reasons (env : Env) (url : String) :
    (validate_scribd_url url = false → download_document env url = invalidUrlResult) ∧
    (∀ id, validate_scribd_url url = true → extract_document_id url = some id →
      id.isEmpty = false →
      (∀ u, (env.svc id u).post = HttpResult.exn true) →
      env.alt (altUrlBase ++ id) = HttpResult.exn true →
      download_document env url = notRetrievableResult) := by
  constructor
  · intro hv
    simp [download_document, hv]
  · intro id hv hx hid hsvc halt
    have hdfs : ∀ u ∈ DOWNLOAD_SERVICES, pdfCheck (download_from_service env id u) = false := by
      intro u _
      simp [download_from_service, hsvc u, pdfCheck]
    have htr := tryServices_all_fail DOWNLOAD_SERVICES hdfs
    have h1 : (direct_download env url).1 = none := by
      simp [direct_download, hx, hid, htr, halt, altFetch]
    simp [download_document, hv, hx, hid, h1]

theorem C5_failure_reasons_witness :
    download_document envTimeoutAll urlOk = notRetrievableResult :=
  (C5_failure_reasons envTimeoutAll urlOk).2 idW (by decide) (by decide) (by decide)
    (fun u => rfl) rfl

/-! ### Claim C4 -/

/-- A signed payload one byte past the 50 MiB ceiling. -/
def bigPayload : List Nat := 37 :: 80 :: 68 :: 70 :: List.replicate (50 * 1024 * 1024 - 3) 0

/-- Network whose first service serves the oversized signed payload. -/
def envC4 : Env := ⟨fun _ _ => ⟨.ok 200 ⟨true, some pdfUrlStub⟩, .ok 200 bigPayload⟩,
  fun _ => .exn true⟩

lemma bigPayload_sig : bigPayload.take 4 = pdfSignature := rfl

lemma bigPayload_length : bigPayload.length = 50 * 1024 * 1024 + 1 := by
  show (37 :: 80 :: 68 :: 70 :: List.replicate (50 * 1024 * 1024 - 3) 0).length =
    50 * 1024 * 1024 + 1
  rw [List.length_cons, List.length_cons, List.length_cons, List.length_cons,
    List.length_replicate]

/-- C4 counterexample: the resolver validates the oversized payload (the
service loop returns it), yet download_document does not return the
bytes it validated: it applies the 50 MiB ceiling itself and converts
the payload into a failure, contradicting the claim that size policy is
enforced only by the caller. -/
theorem C4_counterexample :
    (direct_download envC4 urlOk).1 = some bigPayload ∧
    (download_document envC4 urlOk).success = false ∧
    (download_document envC4 urlOk).data = none := by
  have h1 : download_from_service envC4 idW service1 = some bigPayload := rfl
  have hchk : pdfCheck (some bigPayload) = true := pdfCheck_of_sig bigPayload_sig
  have htry : tryServices envC4 idW DOWNLOAD_SERVICES = (some bigPayload, [service1]) := by
    simp [DOWNLOAD_SERVICES, tryServices, h1, hchk]
  have hx : extract_document_id urlOk = some idW := by decide
  have hid : idW.isEmpty = false := by decide
  have hdd : (direct_download envC4 urlOk).1 = some bigPayload := by
    simp [direct_download, hx, hid, htry]
  have hv : validate_scribd_url urlOk = true := by decide
  have hde : bigPayload.isEmpty = false := rfl
  have hgt : 50 * 1024 * 1024 < bigPayload.length := by
    rw [bigPayload_length]
    omega
  refine ⟨hdd, ?_, ?_⟩ <;> simp [download_document, hv, hx, hid, hdd, hde, hgt, tooLargeResult]

/-- C4 amended: the 50 MiB ceiling is enforced inside download_document
itself, not by its caller: a validated payload longer than 50 MiB is
converted into the file-too-large failure, and only a validated payload
within the ceiling is returned whole (the chat-transport caller performs
no size check of its own). -/
theorem C4_size_ceiling_internal (env : Env) (url id : String) (b : List Nat)
    (hv : validate_scribd_url url = true) (hx : extract_document_id url = some id)
    (hid : id.isEmpty = false) (hb : (direct_download env url).1 = some b) :
    (b.length > 50 * 1024 * 1024 →
      download_document env url = tooLargeResult id b.length) ∧
    (b.length ≤ 50 * 1024 * 1024 →
      download_document env url =
        ⟨true, some b, fileNameSuccessBase ++ id ++ dotPdf, none, some b.length⟩) := by
  have hsig := direct_download_some_sig hb
  have hne : b ≠ [] := by
    intro h
    rw [h] at hsig
    simp [pdfSignature] at hsig
  have hde : b.isEmpty = false := by
    cases b with
    | nil => exact absurd rfl hne
    | cons x xs => rfl
  constructor
  · intro hgt
    simp [download_document, hv, hx, hid, hb, hde, hgt]
  · intro hle
    have hngt : ¬ b.length > 50 * 1024 * 1024 := Nat.not_lt.mpr hle
    simp [download_document, hv, hx, hid, hb, hde, hngt]

theorem C4_size_ceiling_internal_witness :
    download_document envOk urlOk =
      ⟨true, some [37, 80, 68, 70, 9], fileNameSuccessBase ++ idW ++ dotPdf, none, some 5⟩ :=
  (C4_size_ceiling_internal envOk urlOk idW [37, 80, 68, 70, 9] (by decide) (by decide)
    (by decide) (by decide)).2 (by decide)

/-! ### Claim C10 -/

def sixtyOneAs : String := "aaaaaaaaaaaaaaaaaaaaaaaaaaaaaaaaaaaaaaaaaaaaaaaaaaaaaaaaaaaaa"

/-- C10: sanitize_filename always returns at most 60 characters, and
because the `.pdf` suffix is appended before the `[:60]` truncation, an
input of 61 word-characters yields a 60-character name that no longer
ends with `.pdf`. -/
theorem C10_sanitize_truncates_after_suffix :
    (∀ s : String, (sanitize_filename s).length ≤ 60) ∧
    dotPdf.data.isSuffixOf (sanitize_filename sixtyOneAs).data = false := by
  constructor
  · intro s
    show ((sanitizeCore s.data).take 60).length ≤ 60
    exact List.length_take_le 60 (sanitizeCore s.data)
  · decide

/-! ### Claim C6 -/

lemma stringMk_data (l : List Char) : (String.mk l).data = l := rfl

lemma searchOpt_eq_some_head {f : List Char → Option (List Char)} {l x : List Char}
    (h : f l = some x) : searchOpt f l = some x := by
  cases l with
  | nil => simpa [searchOpt] using h
  | cons c t => exact searchOpt_cons_of_some h

lemma matchScribdSegAt_seg_doc {X g : List Char} (ht : takeDigits1 X = some g) :
    matchScribdSegAt (litScribd ++ (litDoc ++ X)) = some g := by
  have h1 : matchPrefixCI litScribd (litScribd ++ (litDoc ++ X)) = some (litDoc ++ X) := by rfl
  have h2 : matchPrefixCI litDoc (litDoc ++ X) = some X := by rfl
  simp only [matchScribdSegAt, h1, matchSegDigits, litDigitsAt, h2, ht]

lemma matchScribdSegAt_seg_document {X g : List Char} (ht : takeDigits1 X = some g) :
    matchScribdSegAt (litScribd ++ (litDocument ++ X)) = some g := by
  have h1 : matchPrefixCI litScribd (litScribd ++ (litDocument ++ X)) =
      some (litDocument ++ X) := by rfl
  have h0 : matchPrefixCI litDoc (litDocument ++ X) = none := by rfl
  have h2 : matchPrefixCI litDocument (litDocument ++ X) = some X := by rfl
  simp only [matchScribdSegAt, h1, matchSegDigits, litDigitsAt, h0, h2, ht]

lemma matchScribdSegAt_seg_presentation {X g : List Char} (ht : takeDigits1 X = some g) :
    matchScribdSegAt (litScribd ++ (litPresentation ++ X)) = some g := by
  have h1 : matchPrefixCI litScribd (litScribd ++ (litPresentation ++ X)) =
      some (litPresentation ++ X) := by rfl
  have h0a : matchPrefixCI litDoc (litPresentation ++ X) = none := by rfl
  have h0b : matchPrefixCI litDocument (litPresentation ++ X) = none := by rfl
  have h2 : matchPrefixCI litPresentation (litPresentation ++ X) = some X := by rfl
  simp only [matchScribdSegAt, h1, matchSegDigits, litDigitsAt, h0a, h0b, h2, ht]

/-- A leftmost search over a concrete URL prefix followed by the scribd
path pattern finds exactly the digit group after the segment; the
extraction loop then returns it from its first pattern. -/
lemma extract_at_concrete_prefix {pre seg d rest : List Char}
    (htail : matchScribdSegAt (litScribd ++ (seg ++ (d ++ rest))) = some d)
    (hskip : ∀ n, n < pre.length →
      matchScribdSegAt (pre.drop n ++ (litScribd ++ (seg ++ (d ++ rest)))) = none) :
    extract_document_id (String.mk (pre ++ (litScribd ++ (seg ++ (d ++ rest))))) =
      some (String.mk d) := by
  have hsearch : searchOpt matchScribdSegAt (pre ++ (litScribd ++ (seg ++ (d ++ rest)))) =
      some d := by
    rw [searchOpt_append_none pre _ hskip]
    exact searchOpt_eq_some_head htail
  simp [extract_document_id, extractDocIdL, firstSomeSearch, stringMk_data, hsearch]

def preHttpsWww : List Char := "https://www.".data
def preHttps : List Char := "https://".data
def preHttpWww : List Char := "http://www.".data
def preHttp : List Char := "http://".data

/-- C6: for every URL of an accepted shape — scheme, optional `www.`,
`scribd.com/`, one of the `doc`/`document`/`presentation` segments, then
a numeric identifier, optionally followed by a slug starting with `/` of
arbitrary content — extract_document_id returns exactly the numeric path
segment, unaffected by the slug's presence, absence, or content. -/
theorem C6_extracts_numeric_segment (pre seg d rest : List Char)
    (hpre : pre ∈ [preHttpsWww, preHttps, preHttpWww, preHttp])
    (hseg : seg ∈ [litDoc, litDocument, litPresentation])
    (hd : d ≠ []) (hdig : ∀ c ∈ d, c.isDigit = true)
    (hrest : rest = [] ∨ ∃ t, rest = '/' :: t) :
    extract_document_id (String.mk (pre ++ (litScribd ++ (seg ++ (d ++ rest))))) =
      some (String.mk d) := by
  have hrb : headNotDigit rest = true := by
    rcases hrest with rfl | ⟨t, rfl⟩ <;> rfl
  have ht : takeDigits1 (d ++ rest) = some d := takeDigits1_append hd hdig hrb
  fin_cases hpre <;> fin_cases hseg <;>
    exact extract_at_concrete_prefix
      (by
        first
          | exact matchScribdSegAt_seg_doc ht
          | exact matchScribdSegAt_seg_document ht
          | exact matchScribdSegAt_seg_presentation ht)
      (by
        intro n hn
        first
          | rw [show preHttpsWww.length = 12 from rfl] at hn
          | rw [show preHttps.length = 8 from rfl] at hn
          | rw [show preHttpWww.length = 11 from rfl] at hn
          | rw [show preHttp.length = 7 from rfl] at hn
        interval_cases n <;> rfl)

def slugW : String := "/My-Title"
def slugTailW : String := "My-Title"

theorem C6_extracts_numeric_segment_witness :
    extract_document_id urlOk = some idW :=
  C6_extracts_numeric_segment preHttpsWww litDocument idW.data slugW.data
    (by simp) (by simp) (by decide) (by decide)
    (Or.inr ⟨slugTailW.data, rfl⟩)

/-! ### Claims C7 and C8: every validate pattern implies the first
extraction pattern -/

def litUment : List Char := "ment/".data
def litResentation : List Char := "resentation/".data

lemma charEqCI_toLower {a b : Char} (h : charEqCI a b = true) : a.toLower = b.toLower :=
  eq_of_beq h

lemma matchCI_cons_some {a : Char} {la s r : List Char}
    (h : matchPrefixCI (a :: la) s = some r) :
    ∃ b lb, s = b :: lb ∧ charEqCI a b = true ∧ matchPrefixCI la lb = some r := by
  cases s with
  | nil => simp [matchPrefixCI] at h
  | cons b lb =>
    cases hc : charEqCI a b with
    | false =>
      have hn : matchPrefixCI (a :: la) (b :: lb) = none := by
        simp only [matchPrefixCI, hc]
      rw [hn] at h
      exact absurd h (by simp)
    | true => exact ⟨b, lb, rfl, hc, by simpa only [matchPrefixCI, hc] using h⟩

/-- The `doc/` alternative cannot match where `document/` matched (4th
character `/` vs `u`). -/
lemma litDoc_fails_of_document {m r' : List Char}
    (h : matchPrefixCI litDocument m = some r') : matchPrefixCI litDoc m = none := by
  have h0 : matchPrefixCI ('d' :: 'o' :: 'c' :: 'u' :: litUment) m = some r' := h
  obtain ⟨b0, m0, rfl, hb0, h1⟩ := matchCI_cons_some h0
  obtain ⟨b1, m1, rfl, hb1, h2⟩ := matchCI_cons_some h1
  obtain ⟨b2, m2, rfl, hb2, h3⟩ := matchCI_cons_some h2
  obtain ⟨b3, m3, rfl, hb3, _⟩ := matchCI_cons_some h3
  have hb3l : b3.toLower = 'u' := by
    have h' := (charEqCI_toLower hb3).symm
    rwa [show Char.toLower 'u' = 'u' from rfl] at h'
  have hslash : charEqCI '/' b3 = false := by
    unfold charEqCI
    rw [hb3l]
    decide
  show matchPrefixCI ('d' :: 'o' :: 'c' :: '/' :: []) (b0 :: b1 :: b2 :: b3 :: m3) = none
  simp only [matchPrefixCI, hb0, hb1, hb2, hslash]

/-- Neither `doc/` nor `document/` can match where `presentation/`
matched (first character `d` vs `p`). -/
lemma litDoc_fails_of_presentation {m r' : List Char}
    (h : matchPrefixCI litPresentation m = some r') : matchPrefixCI litDoc m = none := by
  have h0 : matchPrefixCI ('p' :: litResentation) m = some r' := h
  obtain ⟨b0, m0, rfl, hb0, _⟩ := matchCI_cons_some h0
  have hb0l : b0.toLower = 'p' := by
    have h' := (charEqCI_toLower hb0).symm
    rwa [show Char.toLower 'p' = 'p' from rfl] at h'
  have hd : charEqCI 'd' b0 = false := by
    unfold charEqCI
    rw [hb0l]
    decide
  show matchPrefixCI ('d' :: 'o' :: 'c' :: '/' :: []) (b0 :: m0) = none
  simp only [matchPrefixCI, hd]

lemma litDocument_fails_of_presentation {m r' : List Char}
    (h : matchPrefixCI litPresentation m = some r') : matchPrefixCI litDocument m = none := by
  have h0 : matchPrefixCI ('p' :: litResentation) m = some r' := h
  obtain ⟨b0, m0, rfl, hb0, _⟩ := matchCI_cons_some h0
  have hb0l : b0.toLower = 'p' := by
    have h' := (charEqCI_toLower hb0).symm
    rwa [show Char.toLower 'p' = 'p' from rfl] at h'
  have hd : charEqCI 'd' b0 = false := by
    unfold charEqCI
    rw [hb0l]
    decide
  show matchPrefixCI ('d' :: 'o' :: 'c' :: 'u' :: litUment) (b0 :: m0) = none
  simp only [matchPrefixCI, hd]

lemma litScribdDoc_eq : litScribdDoc = litScribd ++ litDoc := by decide
lemma litScribdDocument_eq : litScribdDocument = litScribd ++ litDocument := by decide
lemma litScribdPresentation_eq : litScribdPresentation = litScribd ++ litPresentation := by
  decide

/-- A match of validate pattern 2's core is a match of the first
extraction pattern at the same position. -/
lemma scribdSeg_of_core_doc {r d : List Char} (h : litDigitsAt litScribdDoc r = some d) :
    matchScribdSegAt r = some d := by
  unfold litDigitsAt at h
  cases hm : matchPrefixCI litScribdDoc r with
  | none => rw [hm] at h; exact absurd h (by simp)
  | some r' =>
    rw [hm] at h
    have h' : takeDigits1 r' = some d := h
    rw [litScribdDoc_eq] at hm
    obtain ⟨m, hm1, hm2⟩ := matchPrefixCI_append_some _ _ _ _ hm
    simp only [matchScribdSegAt, hm1, matchSegDigits, litDigitsAt, hm2, h']

/-- A match of validate pattern 3's core is a match of the first
extraction pattern at the same position. -/
lemma scribdSeg_of_core_document {r d : List Char}
    (h : litDigitsAt litScribdDocument r = some d) : matchScribdSegAt r = some d := by
  unfold litDigitsAt at h
  cases hm : matchPrefixCI litScribdDocument r with
  | none => rw [hm] at h; exact absurd h (by simp)
  | some r' =>
    rw [hm] at h
    have h' : takeDigits1 r' = some d := h
    rw [litScribdDocument_eq] at hm
    obtain ⟨m, hm1, hm2⟩ := matchPrefixCI_append_some _ _ _ _ hm
    have hfail := litDoc_fails_of_document hm2
    simp only [matchScribdSegAt, hm1, matchSegDigits, litDigitsAt, hfail, hm2, h']

/-- A match of validate pattern 4's core is a match of the first
extraction pattern at the same position. -/
lemma scribdSeg_of_core_presentation {r d : List Char}
    (h : litDigitsAt litScribdPresentation r = some d) : matchScribdSegAt r = some d := by
  unfold litDigitsAt at h
  cases hm : matchPrefixCI litScribdPresentation r with
  | none => rw [hm] at h; exact absurd h (by simp)
  | some r' =>
    rw [hm] at h
    have h' : takeDigits1 r' = some d := h
    rw [litScribdPresentation_eq] at hm
    obtain ⟨m, hm1, hm2⟩ := matchPrefixCI_append_some _ _ _ _ hm
    have hfa := litDoc_fails_of_presentation hm2
    have hfb := litDocument_fails_of_presentation hm2
    simp only [matchScribdSegAt, hm1, matchSegDigits, litDigitsAt, hfa, hfb, hm2, h']

lemma matchScheme_drop {s r : List Char} (h : matchScheme s = some r) :
    ∃ m, r = s.drop m := by
  unfold matchScheme at h
  cases h8 : matchPrefixCI litHttps s with
  | some r8 =>
    rw [h8] at h
    cases h
    exact ⟨litHttps.length, matchPrefixCI_drop _ _ _ h8⟩
  | none =>
    rw [h8] at h
    exact ⟨litHttp.length, matchPrefixCI_drop _ _ _ h⟩

/-- Whatever a scheme-plus-optional-www pattern matches, its core matched
at some position of the input. -/
lemma matchSchemeThen_some {core : List Char → Option (List Char)} {s d : List Char}
    (h : matchSchemeThen core s = some d) : ∃ n, core (s.drop n) = some d := by
  unfold matchSchemeThen at h
  cases hm : matchScheme s with
  | none => rw [hm] at h; exact absurd h (by simp)
  | some r =>
    rw [hm] at h
    obtain ⟨m, rfl⟩ := matchScheme_drop hm
    have h1 : (match matchPrefixCI litWww (s.drop m) with
        | some r2 =>
          match core r2 with
          | some d => some d
          | none => core (s.drop m)
        | none => core (s.drop m)) = some d := h
    cases hw : matchPrefixCI litWww (s.drop m) with
    | none =>
      rw [hw] at h1
      exact ⟨m, h1⟩
    | some r2 =>
      rw [hw] at h1
      have h2 : (match core r2 with
          | some x => some x
          | none => core (s.drop m)) = some d := h1
      have hr2 : r2 = (s.drop m).drop litWww.length := matchPrefixCI_drop _ _ _ hw
      cases hc : core r2 with
      | none =>
        rw [hc] at h2
        have h3 : core (s.drop m) = some d := h2
        exact ⟨m, h3⟩
      | some d' =>
        rw [hc] at h2
        have h3 : some d' = some d := h2
        cases h3
        refine ⟨m + litWww.length, ?_⟩
        rw [← List.drop_drop, ← hr2]
        exact hc

/-- Any successful validate pattern yields a successful match of the
first extraction pattern somewhere in the input. -/
lemma validate_implies_P1 {url : String} (h : validate_scribd_url url = true) :
    ∃ g, searchOpt matchScribdSegAt url.data = some g := by
  have h' := h
  unfold validate_scribd_url at h'
  simp only [Bool.or_eq_true, Option.isSome_iff_exists] at h'
  have key : ∃ n x, matchScribdSegAt (url.data.drop n) = some x := by
    rcases h' with (((⟨d, hd⟩ | ⟨d, hd⟩) | ⟨d, hd⟩) | ⟨d, hd⟩)
    · obtain ⟨n, hAt⟩ := searchOpt_some_drop _ _ hd
      obtain ⟨n', hP⟩ := matchSchemeThen_some hAt
      rw [List.drop_drop] at hP
      exact ⟨_, d, hP⟩
    · obtain ⟨n, hAt⟩ := searchOpt_some_drop _ _ hd
      obtain ⟨n', hP⟩ := matchSchemeThen_some hAt
      rw [List.drop_drop] at hP
      exact ⟨_, d, scribdSeg_of_core_doc hP⟩
    · obtain ⟨n, hAt⟩ := searchOpt_some_drop _ _ hd
      obtain ⟨n', hP⟩ := matchSchemeThen_some hAt
      rw [List.drop_drop] at hP
      exact ⟨_, d, scribdSeg_of_core_document hP⟩
    · obtain ⟨n, hAt⟩ := searchOpt_some_drop _ _ hd
      obtain ⟨n', hP⟩ := matchSchemeThen_some hAt
      rw [List.drop_drop] at hP
      exact ⟨_, d, scribdSeg_of_core_presentation hP⟩
  obtain ⟨n, x, hAt⟩ := key
  exact searchOpt_isSome_drop url.data n x hAt

/-- C7: a string that does not contain the accepted path shape — a
scribd.com doc/document/presentation path segment followed by a numeric
identifier (the first extraction pattern) — is classified as
"not a supported link": the validate-then-extract pipeline yields no
reference (None), not an error. -/
theorem C7_no_accepted_shape_classify_none (s : String)
    (h : searchOpt matchScribdSegAt s.data = none) : classify s = none := by
  cases hb : validate_scribd_url s with
  | false => simp [classify, hb]
  | true =>
    obtain ⟨g, hg⟩ := validate_implies_P1 hb
    rw [h] at hg
    exact absurd hg (by simp)

def strNotAUrl : String := "not a url"

theorem C7_no_accepted_shape_classify_none_witness : classify strNotAUrl = none :=
  C7_no_accepted_shape_classify_none strNotAUrl (by decide)

/-- C8: on every string accepted by validate_scribd_url,
extract_document_id succeeds, and the extracted identifier is a
non-empty string of decimal digits. -/
theorem C8_validate_implies_numeric_id (s : String) (h : validate_scribd_url s = true) :
    ∃ id, extract_document_id s = some id ∧ id ≠ emptyName ∧
      id.data.all Char.isDigit = true := by
  obtain ⟨g, hg⟩ := validate_implies_P1 h
  obtain ⟨n, hAt⟩ := searchOpt_some_drop _ _ hg
  have hgd := matchScribdSegAt_some hAt
  refine ⟨String.mk g, ?_, ?_, ?_⟩
  · simp [extract_document_id, extractDocIdL, firstSomeSearch, hg]
  · intro he
    have hdata := congrArg String.data he
    rw [stringMk_data] at hdata
    rw [show emptyName.data = [] from rfl] at hdata
    exact hgd.1 hdata
  · simp only [stringMk_data, List.all_eq_true]
    intro c hc
    exact hgd.2 c hc

def urlDoc42 : String := "https://www.scribd.com/doc/42"

theorem C8_validate_implies_numeric_id_witness :
    validate_scribd_url urlDoc42 = true ∧
    ∃ id, extract_document_id urlDoc42 = some id ∧ id ≠ emptyName ∧
      id.data.all Char.isDigit = true :=
  ⟨by decide, C8_validate_implies_numeric_id urlDoc42 (by decide)⟩
